import Mathlib

/-!
# Verification of the R2 upload gateway (`src/r2_uploader.js`)

A shallow embedding of the Express HTTP gateway that brokers uploads and
downloads to an S3-compatible object store.  Request handlers become pure
Lean functions over explicit oracles for the collaborators the code calls
out to (the store's presigner, `s3.send`, and the filesystem), returning
the HTTP response together with the trace of outbound effects.
JSON response bodies are modelled as association lists of string keys to
primitive values; JavaScript strings are modelled as `String` where the
content is opaque and as lists of Unicode scalar values (`List Nat`) where
the code inspects characters (`encodeURIComponent`).
-/

/-- A primitive JSON value appearing in a response body (the handlers only
ever emit strings and booleans). -/
inductive JVal where
  | s : String → JVal
  | b : Bool → JVal
deriving DecidableEq, Repr

/-- An HTTP response: status code plus JSON object body, modelled as the
ordered field list passed to `res.json`. -/
structure HttpResponse where
  status : Nat
  body : List (String × JVal)
deriving DecidableEq, Repr

/-- JavaScript `x || d` for an optional string field: `undefined` and the
empty string are falsy and select the default. -/
def jsOr (o : Option String) (d : String) : String :=
  match o with
  | none => d
  | some s => if s = "" then d else s

/-- JavaScript truthiness test `!x` for an optional string field: absent or
empty means falsy. -/
def jsFalsy (o : Option String) : Bool :=
  match o with
  | none => true
  | some s => s = ""

/-- The configuration read from the environment at startup: `R2_BUCKET` and
`R2_PUBLIC_URL` (absent or empty environment variables are `none`/`""` and
fall through `||` to the defaults, as in the source). -/
structure Config where
  bucket : String
  publicBaseUrl : Option String

/-- The built-in fallback public base URL (line 56 and line 253 of the
source). -/
def defaultBaseUrl : String := "https://cdn.atulyaayurveda.shop"

/-- `process.env.R2_PUBLIC_URL || 'https://cdn.atulyaayurveda.shop'`. -/
def baseUrl (cfg : Config) : String :=
  jsOr cfg.publicBaseUrl defaultBaseUrl

/-! ## Percent encoding (`encodeURIComponent`)

`encodeURIComponent` leaves the unreserved characters
`A-Z a-z 0-9 - _ . ! ~ * ' ( )` untouched and replaces every other
character by the `%XX` (uppercase hex) encoding of each of its UTF-8
bytes.  We model JavaScript strings here as lists of Unicode scalar
values. -/

/-- Characters `encodeURIComponent` leaves unescaped, by code point:
`A-Z` (65–90), `a-z` (97–122), `0-9` (48–57), `-` 45, `_` 95, `.` 46,
`!` 33, `~` 126, `*` 42, apostrophe 39, `(` 40, `)` 41. -/
def isUnreserved (n : Nat) : Bool :=
  (65 ≤ n && n ≤ 90) || (97 ≤ n && n ≤ 122) || (48 ≤ n && n ≤ 57) ||
  n = 45 || n = 95 || n = 46 || n = 33 || n = 126 || n = 42 ||
  n = 39 || n = 40 || n = 41

/-- The UTF-8 byte sequence of a Unicode scalar value. -/
def utf8Bytes (n : Nat) : List Nat :=
  if n < 128 then [n]
  else if n < 2048 then [192 + n / 64, 128 + n % 64]
  else if n < 65536 then [224 + n / 4096, 128 + (n / 64) % 64, 128 + n % 64]
  else [240 + n / 262144, 128 + (n / 4096) % 64, 128 + (n / 64) % 64, 128 + n % 64]

/-- The code point of the uppercase hexadecimal digit for `n < 16`. -/
def hexDigit (n : Nat) : Nat :=
  if n < 10 then 48 + n else 55 + n

/-- `%XX` escape of one byte, as a list of code points. -/
def percentEncodeByte (b : Nat) : List Nat :=
  [37, hexDigit (b / 16), hexDigit (b % 16)]

/-- `encodeURIComponent` on a single scalar value. -/
def encodeChar (n : Nat) : List Nat :=
  if isUnreserved n then [n] else (utf8Bytes n).flatMap percentEncodeByte

/-- `encodeURIComponent` over a whole string of scalar values. -/
def percentEncode (s : List Nat) : List Nat :=
  s.flatMap encodeChar

/-- Numeric value of a hexadecimal digit code point (upper or lower case),
`none` if the character is not a hex digit. -/
def hexVal (n : Nat) : Option Nat :=
  if 48 ≤ n ∧ n ≤ 57 then some (n - 48)
  else if 65 ≤ n ∧ n ≤ 70 then some (n - 55)
  else if 97 ≤ n ∧ n ≤ 102 then some (n - 87)
  else none

/-- First phase of percent-decoding: turn the character sequence into the
byte sequence it denotes.  A `%` followed by two hex digits contributes
that byte; any other character contributes its own UTF-8 bytes; a
malformed escape fails (as `decodeURIComponent` throws `URIError`). -/
def unescape : List Nat → Option (List Nat)
  | [] => some []
  | c :: rest =>
    if c = 37 then
      match rest with
      | h1 :: h2 :: rest2 =>
        match hexVal h1, hexVal h2 with
        | some a, some b => (unescape rest2).map (fun t => (a * 16 + b) :: t)
        | _, _ => none
      | _ => none
    else (unescape rest).map (fun t => utf8Bytes c ++ t)

/-- Decode one UTF-8-encoded scalar value from the front of a byte
sequence (strict: rejects stray continuation bytes, truncated sequences
and overlong encodings), returning the value and the remaining bytes. -/
def decodeOne : List Nat → Option (Nat × List Nat)
  | [] => none
  | b0 :: rest =>
    if b0 < 128 then some (b0, rest)
    else if b0 < 192 then none
    else if b0 < 224 then
      match rest with
      | b1 :: rest2 =>
        if 128 ≤ b1 && b1 < 192 then
          let n := (b0 - 192) * 64 + (b1 - 128)
          if 128 ≤ n then some (n, rest2) else none
        else none
      | [] => none
    else if b0 < 240 then
      match rest with
      | b1 :: b2 :: rest2 =>
        if (128 ≤ b1 && b1 < 192) && (128 ≤ b2 && b2 < 192) then
          let n := (b0 - 224) * 4096 + (b1 - 128) * 64 + (b2 - 128)
          if 2048 ≤ n then some (n, rest2) else none
        else none
      | _ => none
    else if b0 < 248 then
      match rest with
      | b1 :: b2 :: b3 :: rest2 =>
        if ((128 ≤ b1 && b1 < 192) && (128 ≤ b2 && b2 < 192)) &&
            (128 ≤ b3 && b3 < 192) then
          let n := (b0 - 240) * 262144 + (b1 - 128) * 4096 +
                   (b2 - 128) * 64 + (b3 - 128)
          if 65536 ≤ n then some (n, rest2) else none
        else none
      | _ => none
    else none

theorem decodeOne_length {l : List Nat} {n : Nat} {rest : List Nat}
    (h : decodeOne l = some (n, rest)) : rest.length < l.length := by
  unfold decodeOne at h
  repeat' split at h
  all_goals simp_all <;> omega

/-- Second phase of percent-decoding: strict UTF-8 decoding of the byte
sequence back into scalar values, one scalar at a time. -/
def utf8Decode (l : List Nat) : Option (List Nat) :=
  if l = [] then some []
  else
    match h : decodeOne l with
    | some (n, rest) => (utf8Decode rest).map (fun t => n :: t)
    | none => none
termination_by l.length
decreasing_by exact decodeOne_length h

/-- Full percent-decoding (`decodeURIComponent` on escape-only content):
unescape to bytes, then UTF-8 decode. -/
def percentDecode (l : List Nat) : Option (List Nat) :=
  (unescape l).bind utf8Decode

/-- The last path segment of a URL given as a list of code points: the
suffix after the last `/` (code point 47). -/
def lastSegment (l : List Nat) : List Nat :=
  ((l.reverse.takeWhile (fun c => c ≠ 47)).reverse)

/-- A Unicode scalar value as found in a JavaScript string with no lone
surrogates (`encodeURIComponent` throws on lone surrogates). -/
def ValidScalar (n : Nat) : Prop :=
  n < 1114112 ∧ (n < 55296 ∨ 57343 < n)

instance (n : Nat) : Decidable (ValidScalar n) := by
  unfold ValidScalar; infer_instance

/-- `encodeURIComponent` on a Lean `String`, going through the scalar-value
model.  The encoder only emits ASCII, so `Char.ofNat` is lossless here. -/
def percentEncodeStr (s : String) : String :=
  String.mk ((percentEncode (s.data.map Char.toNat)).map Char.ofNat)

/-- The public URL construction shared by both upload paths (source lines
56–58 and 253–255): `${baseUrl}/${encodeURIComponent(filename)}`. -/
def publicUrlFor (cfg : Config) (filename : String) : String :=
  baseUrl cfg ++ "/" ++ percentEncodeStr filename

/-! ## The presigned-URL handlers

Each handler is a pure function of the configuration, an oracle for the
store's signing capability (`getSignedUrl`, which may throw), and the
request body, modelled as an association list of string fields (absent
key = absent field).  It returns the HTTP response together with the list
of signing requests issued, in order. -/

/-- The operation a signing request authorizes: `PutObjectCommand` or
`GetObjectCommand`. -/
inductive SignOp where
  | put
  | get
deriving DecidableEq, Repr

/-- One call to `getSignedUrl`: the command's parameters plus the
`expiresIn` option. -/
structure SignRequest where
  op : SignOp
  bucket : String
  key : String
  contentType : Option String
  expiresIn : Nat
deriving DecidableEq, Repr

/-- Oracle for `getSignedUrl`: either the presigned URL or the thrown
error's `err.message`. -/
def Signer : Type := SignRequest → Except String String

/-- `err.message || d`: the surfaced error message with its fallback. -/
def errOr (m d : String) : String :=
  if m = "" then d else m

/-- `POST /generate-upload-url` (source lines 38–74). -/
def generateUploadUrl (cfg : Config) (signer : Signer)
    (body : List (String × String)) : HttpResponse × List SignRequest :=
  let filename := body.lookup "filename"
  let contentType := body.lookup "contentType"
  if jsFalsy filename then
    (⟨400, [("error", .s "Filename is required")]⟩, [])
  else
    let fn := filename.getD ""
    let req : SignRequest :=
      ⟨.put, cfg.bucket, fn, some (jsOr contentType "application/octet-stream"), 3600⟩
    match signer req with
    | .ok presignedUrl =>
      let publicUrl := publicUrlFor cfg fn
      (⟨200, [("success", .b true), ("presignedUrl", .s presignedUrl),
              ("publicUrl", .s publicUrl), ("filename", .s fn),
              ("message", .s "Presigned URL generated successfully")]⟩, [req])
    | .error msg =>
      (⟨500, [("success", .b false),
              ("error", .s (errOr msg "Failed to generate presigned URL"))]⟩, [req])

/-- `POST /generate-download-url` (source lines 77–106). -/
def generateDownloadUrl (cfg : Config) (signer : Signer)
    (body : List (String × String)) : HttpResponse × List SignRequest :=
  let filename := body.lookup "filename"
  if jsFalsy filename then
    (⟨400, [("error", .s "Filename is required")]⟩, [])
  else
    let fn := filename.getD ""
    let req : SignRequest := ⟨.get, cfg.bucket, fn, none, 3600⟩
    match signer req with
    | .ok presignedUrl =>
      (⟨200, [("success", .b true), ("presignedUrl", .s presignedUrl),
              ("filename", .s fn),
              ("message", .s "Download URL generated successfully")]⟩, [req])
    | .error msg =>
      (⟨500, [("success", .b false),
              ("error", .s (errOr msg "Failed to generate download URL"))]⟩, [req])

/-! ## The legacy upload handler (`POST /upload`)

The handler works against the local filesystem (`fs.existsSync`,
`fs.readFileSync`, `fs.unlinkSync`) and the store (`s3.send` of a
`PutObjectCommand`).  Both are modelled as oracles: the filesystem by the
staged file's initial existence, the outcome of reading it, and the
outcome of each successive `unlinkSync` attempt (a successful unlink
removes the file); the store by the outcome of the put.  The result
records the response, whether the temporary file still exists afterwards,
and the trace of put commands sent. -/

/-- `req.file` as produced by multer for field `file`. -/
structure UploadedFile where
  path : String
  originalname : String
  mimetype : String
deriving DecidableEq, Repr

/-- One `s3.send(new PutObjectCommand(...))` call of the legacy path. -/
structure PutCall where
  bucket : String
  key : String
  fileBody : List Nat
  contentType : String
deriving DecidableEq, Repr

/-- Oracle for the filesystem as seen through the staged file's path. -/
structure FsOracle where
  /-- Initial `fs.existsSync(file.path)`. -/
  exists0 : Bool
  /-- Outcome of `fs.readFileSync(file.path)`: the buffer, or the thrown
  error's message. -/
  readResult : Except String (List Nat)
  /-- Outcome of the `i`-th `fs.unlinkSync(file.path)` attempt (0-based);
  `ok` removes the file, `error` leaves it in place. -/
  unlinkResults : Nat → Except String Unit

/-- Result of a legacy upload: the response, whether the temporary file
still exists on disk when the handler returns, and the put commands
sent to the store. -/
structure LegacyResult where
  response : HttpResponse
  tempFileExists : Bool
  puts : List PutCall
deriving Repr

/-- The 500 error response of the legacy path (source lines 276–280). -/
def legacyError (msg : String) : HttpResponse :=
  ⟨500, [("success", .b false), ("error", .s (errOr msg "Upload failed"))]⟩

/-- The `catch` block of `POST /upload` (source lines 264–280): if the
file path is truthy and the file still exists, attempt one more unlink,
swallowing its own failure; then send the 500 error response. -/
def legacyCatch (msg : String) (f : UploadedFile) (fs : FsOracle)
    (fileExists : Bool) (attempt : Nat) (puts : List PutCall) : LegacyResult :=
  let fileExists' :=
    if f.path ≠ "" ∧ fileExists then
      match fs.unlinkResults attempt with
      | .ok _ => false
      | .error _ => fileExists
    else fileExists
  ⟨legacyError msg, fileExists', puts⟩

/-- `POST /upload` (source lines 224–281). -/
def legacyUpload (cfg : Config) (fs : FsOracle)
    (store : PutCall → Except String Unit)
    (file : Option UploadedFile) : LegacyResult :=
  match file with
  | none => ⟨⟨400, [("error", .s "No file uploaded")]⟩, fs.exists0, []⟩
  | some f =>
    if !fs.exists0 then
      legacyCatch "Uploaded file not found on disk" f fs false 0 []
    else
      match fs.readResult with
      | .error e => legacyCatch e f fs true 0 []
      | .ok fileBuffer =>
        let call : PutCall := ⟨cfg.bucket, f.originalname, fileBuffer, f.mimetype⟩
        match store call with
        | .error e => legacyCatch e f fs true 0 [call]
        | .ok _ =>
          match fs.unlinkResults 0 with
          | .error e => legacyCatch e f fs true 1 [call]
          | .ok _ =>
            let publicUrl := publicUrlFor cfg f.originalname
            ⟨⟨200, [("success", .b true), ("video_url", .s publicUrl),
                    ("thumbnail_url", .s ""), ("duration", .s ""),
                    ("message", .s "Video uploaded successfully")]⟩,
             false, [call]⟩

/-! ## Case-analysis helpers -/

theorem errOr_ne_empty (m d : String) (hd : d ≠ "") : errOr m d ≠ "" := by
  unfold errOr; split <;> simp_all

theorem legacyError_shape (msg : String) :
    (legacyError msg).status = 500 ∧
    (legacyError msg).body.lookup "success" = some (.b false) ∧
    (legacyError msg).body.lookup "error" = some (.s (errOr msg "Upload failed")) :=
  ⟨rfl, rfl, rfl⟩

/-- The signing request `POST /generate-upload-url` constructs when the
filename check passes. -/
def uploadSignRequest (cfg : Config) (body : List (String × String)) : SignRequest :=
  ⟨.put, cfg.bucket, (body.lookup "filename").getD "",
   some (jsOr (body.lookup "contentType") "application/octet-stream"), 3600⟩

/-- The signing request `POST /generate-download-url` constructs when the
filename check passes. -/
def downloadSignRequest (cfg : Config) (body : List (String × String)) : SignRequest :=
  ⟨.get, cfg.bucket, (body.lookup "filename").getD "", none, 3600⟩

theorem generateUploadUrl_cases (cfg : Config) (signer : Signer)
    (body : List (String × String)) :
    (jsFalsy (body.lookup "filename") = true ∧
      generateUploadUrl cfg signer body =
        (⟨400, [("error", .s "Filename is required")]⟩, [])) ∨
    (jsFalsy (body.lookup "filename") = false ∧ ∃ url,
      generateUploadUrl cfg signer body =
        (⟨200, [("success", .b true), ("presignedUrl", .s url),
                ("publicUrl", .s (publicUrlFor cfg ((body.lookup "filename").getD ""))),
                ("filename", .s ((body.lookup "filename").getD "")),
                ("message", .s "Presigned URL generated successfully")]⟩,
         [uploadSignRequest cfg body])) ∨
    (jsFalsy (body.lookup "filename") = false ∧ ∃ msg,
      generateUploadUrl cfg signer body =
        (⟨500, [("success", .b false),
                ("error", .s (errOr msg "Failed to generate presigned URL"))]⟩,
         [uploadSignRequest cfg body])) := by
  unfold generateUploadUrl
  by_cases h : jsFalsy (body.lookup "filename") = true
  · exact Or.inl ⟨h, by simp [h]⟩
  · rw [Bool.not_eq_true] at h
    rcases hs : signer (uploadSignRequest cfg body) with msg | url
    · refine Or.inr (Or.inr ⟨h, msg, ?_⟩)
      simp [h, uploadSignRequest] at hs ⊢
      rw [hs]
    · refine Or.inr (Or.inl ⟨h, url, ?_⟩)
      simp [h, uploadSignRequest] at hs ⊢
      rw [hs]

theorem generateDownloadUrl_cases (cfg : Config) (signer : Signer)
    (body : List (String × String)) :
    (jsFalsy (body.lookup "filename") = true ∧
      generateDownloadUrl cfg signer body =
        (⟨400, [("error", .s "Filename is required")]⟩, [])) ∨
    (jsFalsy (body.lookup "filename") = false ∧ ∃ url,
      generateDownloadUrl cfg signer body =
        (⟨200, [("success", .b true), ("presignedUrl", .s url),
                ("filename", .s ((body.lookup "filename").getD "")),
                ("message", .s "Download URL generated successfully")]⟩,
         [downloadSignRequest cfg body])) ∨
    (jsFalsy (body.lookup "filename") = false ∧ ∃ msg,
      generateDownloadUrl cfg signer body =
        (⟨500, [("success", .b false),
                ("error", .s (errOr msg "Failed to generate download URL"))]⟩,
         [downloadSignRequest cfg body])) := by
  unfold generateDownloadUrl
  by_cases h : jsFalsy (body.lookup "filename") = true
  · exact Or.inl ⟨h, by simp [h]⟩
  · rw [Bool.not_eq_true] at h
    rcases hs : signer (downloadSignRequest cfg body) with msg | url
    · refine Or.inr (Or.inr ⟨h, msg, ?_⟩)
      simp [h, downloadSignRequest] at hs ⊢
      rw [hs]
    · refine Or.inr (Or.inl ⟨h, url, ?_⟩)
      simp [h, downloadSignRequest] at hs ⊢
      rw [hs]

theorem legacyUpload_some_cases (cfg : Config) (fs : FsOracle)
    (store : PutCall → Except String Unit) (f : UploadedFile) :
    (∃ msg, (legacyUpload cfg fs store (some f)).response = legacyError msg) ∨
    (legacyUpload cfg fs store (some f)).response.status = 200 := by
  unfold legacyUpload
  by_cases h0 : fs.exists0
  · rcases hr : fs.readResult with e | buf
    · exact Or.inl ⟨e, by simp [h0, hr, legacyCatch]⟩
    · rcases hp : store ⟨cfg.bucket, f.originalname, buf, f.mimetype⟩ with e | u
      · exact Or.inl ⟨e, by simp [h0, hr, hp, legacyCatch]⟩
      · rcases hu : fs.unlinkResults 0 with e | u'
        · exact Or.inl ⟨e, by simp [h0, hr, hp, hu, legacyCatch]⟩
        · exact Or.inr (by simp [h0, hr, hp, hu])
  · exact Or.inl ⟨"Uploaded file not found on disk", by simp [h0, legacyCatch]⟩

/-! ## Concrete fixtures for witnesses -/

/-- A sample configuration with no `R2_PUBLIC_URL` set. -/
def cfg0 : Config := ⟨"bucket", none⟩

/-- A signer oracle that always succeeds with a fixed URL. -/
def signerOk : Signer := fun _ => Except.ok "https://signed.example/u"

/-- A store oracle that accepts every put. -/
def storeOk : PutCall → Except String Unit := fun _ => Except.ok ()

/-! ## Claims -/

/-- C1 (counterexample): the HTTP 400 response that `generate-upload-url`
returns for a missing filename carries only an `error` field — it has no
`success:false` field, and the same holds for `generate-download-url`. -/
theorem C1_counterexample :
    ((generateUploadUrl cfg0 signerOk []).1.status = 400 ∧
     (generateUploadUrl cfg0 signerOk []).1.body.lookup "success" = none ∧
     (generateUploadUrl cfg0 signerOk []).1.body.lookup "error" =
       some (.s "Filename is required")) ∧
    ((generateDownloadUrl cfg0 signerOk []).1.status = 400 ∧
     (generateDownloadUrl cfg0 signerOk []).1.body.lookup "success" = none) := by
  decide

/-- C1 (amended): every 500 failure response of the gateway carries
`success:false` together with a non-empty error message, but the 400
responses carry only the error message and no `success` field at all. -/
theorem C1_failure_response_shapes (cfg : Config) (signer : Signer)
    (body : List (String × String)) (fs : FsOracle)
    (store : PutCall → Except String Unit) (f : UploadedFile) :
    ((generateUploadUrl cfg signer body).1.status = 400 →
      (generateUploadUrl cfg signer body).1.body =
        [("error", .s "Filename is required")]) ∧
    ((generateUploadUrl cfg signer body).1.status = 500 →
      (generateUploadUrl cfg signer body).1.body.lookup "success" = some (.b false) ∧
      ∃ m, (generateUploadUrl cfg signer body).1.body.lookup "error" =
        some (.s m) ∧ m ≠ "") ∧
    ((generateDownloadUrl cfg signer body).1.status = 400 →
      (generateDownloadUrl cfg signer body).1.body =
        [("error", .s "Filename is required")]) ∧
    ((generateDownloadUrl cfg signer body).1.status = 500 →
      (generateDownloadUrl cfg signer body).1.body.lookup "success" = some (.b false) ∧
      ∃ m, (generateDownloadUrl cfg signer body).1.body.lookup "error" =
        some (.s m) ∧ m ≠ "") ∧
    ((legacyUpload cfg fs store (some f)).response.status = 500 →
      (legacyUpload cfg fs store (some f)).response.body.lookup "success" =
        some (.b false) ∧
      ∃ m, (legacyUpload cfg fs store (some f)).response.body.lookup "error" =
        some (.s m) ∧ m ≠ "") ∧
    (legacyUpload cfg fs store none).response.body =
      [("error", .s "No file uploaded")] := by
  refine ⟨?_, ?_, ?_, ?_, ?_, rfl⟩
  · intro hs
    rcases generateUploadUrl_cases cfg signer body with ⟨h, he⟩ | ⟨h, url, he⟩ | ⟨h, msg, he⟩ <;>
      rw [he] at hs ⊢ <;> simp_all
  · intro hs
    rcases generateUploadUrl_cases cfg signer body with ⟨h, he⟩ | ⟨h, url, he⟩ | ⟨h, msg, he⟩ <;>
      rw [he] at hs ⊢
    · simp at hs
    · simp at hs
    · exact ⟨rfl, errOr msg "Failed to generate presigned URL", rfl,
        errOr_ne_empty _ _ (by decide)⟩
  · intro hs
    rcases generateDownloadUrl_cases cfg signer body with ⟨h, he⟩ | ⟨h, url, he⟩ | ⟨h, msg, he⟩ <;>
      rw [he] at hs ⊢ <;> simp_all
  · intro hs
    rcases generateDownloadUrl_cases cfg signer body with ⟨h, he⟩ | ⟨h, url, he⟩ | ⟨h, msg, he⟩ <;>
      rw [he] at hs ⊢
    · simp at hs
    · simp at hs
    · exact ⟨rfl, errOr msg "Failed to generate download URL", rfl,
        errOr_ne_empty _ _ (by decide)⟩
  · intro hs
    rcases legacyUpload_some_cases cfg fs store f with ⟨msg, he⟩ | h200
    · rw [he]
      exact ⟨rfl, errOr msg "Upload failed", rfl, errOr_ne_empty _ _ (by decide)⟩
    · rw [h200] at hs; simp at hs

/-- C1 (witness): the amended shape theorem applied at a failing signer and
an empty request body. -/
theorem C1_failure_response_shapes_witness :
    (generateUploadUrl cfg0 (fun _ => Except.error "boom")
        [("filename", "a.txt")]).1.status = 500 ∧
    (generateUploadUrl cfg0 (fun _ => Except.error "boom")
        [("filename", "a.txt")]).1.body.lookup "success" = some (.b false) ∧
    ∃ m, (generateUploadUrl cfg0 (fun _ => Except.error "boom")
        [("filename", "a.txt")]).1.body.lookup "error" = some (.s m) ∧ m ≠ "" :=
  ⟨by decide,
   (C1_failure_response_shapes cfg0 (fun _ => Except.error "boom")
      [("filename", "a.txt")] ⟨true, Except.ok [], fun _ => Except.ok ()⟩
      storeOk ⟨"p", "n", "m"⟩).2.1 (by decide)⟩

/-- C4: for every non-empty filename and any contentType, when the signer
succeeds, `generateUploadURL` answers `success:true` with `publicUrl` equal
to the configured public base URL followed by `/` followed by the
percent-encoded filename; when no base is configured the built-in default
base is used. -/
theorem C4_upload_url_public_url (cfg : Config) (signer : Signer)
    (body : List (String × String)) (fn url : String)
    (h1 : body.lookup "filename" = some fn) (h2 : fn ≠ "")
    (h3 : signer ⟨.put, cfg.bucket, fn,
            some (jsOr (body.lookup "contentType") "application/octet-stream"),
            3600⟩ = .ok url) :
    (generateUploadUrl cfg signer body).1 =
      ⟨200, [("success", .b true), ("presignedUrl", .s url),
             ("publicUrl", .s (baseUrl cfg ++ "/" ++ percentEncodeStr fn)),
             ("filename", .s fn),
             ("message", .s "Presigned URL generated successfully")]⟩ ∧
    (cfg.publicBaseUrl = none →
      baseUrl cfg ++ "/" ++ percentEncodeStr fn =
        defaultBaseUrl ++ "/" ++ percentEncodeStr fn) := by
  constructor
  · simp [generateUploadUrl, jsFalsy, h1, h2, h3, publicUrlFor]
  · intro h; rw [baseUrl, h, jsOr]

/-- C4 (witness): a concrete non-empty filename with a space, no configured
base, and an agreeable signer. -/
theorem C4_upload_url_public_url_witness :
    ([("filename", "a b.txt")] : List (String × String)).lookup "filename" =
      some "a b.txt" ∧
    "a b.txt" ≠ "" ∧
    (generateUploadUrl cfg0 signerOk [("filename", "a b.txt")]).1 =
      ⟨200, [("success", .b true),
             ("presignedUrl", .s "https://signed.example/u"),
             ("publicUrl", .s (baseUrl cfg0 ++ "/" ++ percentEncodeStr "a b.txt")),
             ("filename", .s "a b.txt"),
             ("message", .s "Presigned URL generated successfully")]⟩ :=
  ⟨by decide, by decide,
   (C4_upload_url_public_url cfg0 signerOk [("filename", "a b.txt")] "a b.txt"
      "https://signed.example/u" (by decide) (by decide) rfl).1⟩

/-- C7: when the request body of `generate-upload-url` or
`generate-download-url` lacks a filename (absent or empty), the handler
answers HTTP 400 and issues no signing request to the store. -/
theorem C7_missing_filename_no_sign_call (cfg : Config) (signer : Signer)
    (body : List (String × String))
    (h : jsFalsy (body.lookup "filename") = true) :
    ((generateUploadUrl cfg signer body).1.status = 400 ∧
      (generateUploadUrl cfg signer body).2 = []) ∧
    ((generateDownloadUrl cfg signer body).1.status = 400 ∧
      (generateDownloadUrl cfg signer body).2 = []) := by
  refine ⟨?_, ?_⟩ <;> simp [generateUploadUrl, generateDownloadUrl, h]

/-- C7 (witness): an empty request body has no filename. -/
theorem C7_missing_filename_no_sign_call_witness :
    jsFalsy (([] : List (String × String)).lookup "filename") = true ∧
    ((generateUploadUrl cfg0 signerOk []).1.status = 400 ∧
      (generateUploadUrl cfg0 signerOk []).2 = []) ∧
    ((generateDownloadUrl cfg0 signerOk []).1.status = 400 ∧
      (generateDownloadUrl cfg0 signerOk []).2 = []) :=
  ⟨by decide, C7_missing_filename_no_sign_call cfg0 signerOk [] (by decide)⟩

/-- C8: every signing request either handler issues carries `expiresIn`
exactly 3600 seconds and is scoped to the single object key equal to the
request's filename and to a single operation — `PUT` for
`generate-upload-url`, `GET` for `generate-download-url`. -/
theorem C8_sign_requests_scoped (cfg : Config) (signer : Signer)
    (body : List (String × String)) (r : SignRequest) :
    (r ∈ (generateUploadUrl cfg signer body).2 →
      r.expiresIn = 3600 ∧ r.op = .put ∧ r.bucket = cfg.bucket ∧
      r.key = (body.lookup "filename").getD "") ∧
    (r ∈ (generateDownloadUrl cfg signer body).2 →
      r.expiresIn = 3600 ∧ r.op = .get ∧ r.bucket = cfg.bucket ∧
      r.key = (body.lookup "filename").getD "") := by
  constructor
  · intro hr
    rcases generateUploadUrl_cases cfg signer body with ⟨h, he⟩ | ⟨h, url, he⟩ | ⟨h, msg, he⟩ <;>
      rw [he] at hr <;> simp at hr <;> subst hr <;>
      exact ⟨rfl, rfl, rfl, rfl⟩
  · intro hr
    rcases generateDownloadUrl_cases cfg signer body with ⟨h, he⟩ | ⟨h, url, he⟩ | ⟨h, msg, he⟩ <;>
      rw [he] at hr <;> simp at hr <;> subst hr <;>
      exact ⟨rfl, rfl, rfl, rfl⟩

/-- C8 (witness): the one signing request of a successful upload-URL
generation, checked concretely. -/
theorem C8_sign_requests_scoped_witness :
    uploadSignRequest cfg0 [("filename", "a.txt")] ∈
      (generateUploadUrl cfg0 signerOk [("filename", "a.txt")]).2 ∧
    (uploadSignRequest cfg0 [("filename", "a.txt")]).expiresIn = 3600 ∧
    (uploadSignRequest cfg0 [("filename", "a.txt")]).op = .put ∧
    (uploadSignRequest cfg0 [("filename", "a.txt")]).bucket = cfg0.bucket ∧
    (uploadSignRequest cfg0 [("filename", "a.txt")]).key =
      (([("filename", "a.txt")] : List (String × String)).lookup "filename").getD "" :=
  ⟨by decide,
   (C8_sign_requests_scoped cfg0 signerOk [("filename", "a.txt")]
      (uploadSignRequest cfg0 [("filename", "a.txt")])).1 (by decide)⟩

/-- C9: the response of `generateUploadURL` depends only on the `filename`
and `contentType` fields of the request body (given the same configuration
and signer): any other body fields do not influence the response or the
signing trace. -/
theorem C9_body_noninterference (cfg : Config) (signer : Signer)
    (b1 b2 : List (String × String))
    (hf : b1.lookup "filename" = b2.lookup "filename")
    (hc : b1.lookup "contentType" = b2.lookup "contentType") :
    generateUploadUrl cfg signer b1 = generateUploadUrl cfg signer b2 := by
  unfold generateUploadUrl; rw [hf, hc]

/-- C9 (witness): two bodies agreeing on `filename` and `contentType` but
differing in an extra field produce identical responses. -/
theorem C9_body_noninterference_witness :
    ([("filename", "a.txt"), ("extra", "1")] : List (String × String)).lookup
        "filename" =
      ([("filename", "a.txt"), ("other", "2")] : List (String × String)).lookup
        "filename" ∧
    ([("filename", "a.txt"), ("extra", "1")] : List (String × String)).lookup
        "contentType" =
      ([("filename", "a.txt"), ("other", "2")] : List (String × String)).lookup
        "contentType" ∧
    generateUploadUrl cfg0 signerOk [("filename", "a.txt"), ("extra", "1")] =
      generateUploadUrl cfg0 signerOk [("filename", "a.txt"), ("other", "2")] :=
  ⟨by decide, by decide,
   C9_body_noninterference cfg0 signerOk _ _ (by decide) (by decide)⟩

/-- C2 (counterexample): with a store that accepts the write, the response
of `POST /upload` flips from success to a 500 error purely because the
temp-file deletion throws — the success-path `unlinkSync` sits inside the
`try` before the response is sent, so its failure is not swallowed. -/
theorem C2_counterexample :
    (legacyUpload cfg0 ⟨true, Except.ok [1], fun _ => Except.ok ()⟩ storeOk
        (some ⟨"uploads/x", "v.mp4", "video/mp4"⟩)).response.status = 200 ∧
    (legacyUpload cfg0 ⟨true, Except.ok [1], fun _ => Except.error "EACCES"⟩
        storeOk (some ⟨"uploads/x", "v.mp4", "video/mp4"⟩)).response =
      ⟨500, [("success", .b false), ("error", .s "EACCES")]⟩ := by
  decide

/-- C2 (amended): a failure to delete the TemporaryFile inside the catch
block is logged and swallowed — the 500 response is determined by the
original error alone, whatever the cleanup outcome; but the success-path
deletion runs before the response, so when the store write succeeded and
that deletion throws, the handler answers the 500 error response built
from the deletion error instead of the success response. -/
theorem C2_cleanup_failure_effect (cfg : Config) (fs : FsOracle)
    (store : PutCall → Except String Unit) (f : UploadedFile)
    (e : String) (buf : List Nat) :
    (fs.exists0 = true → fs.readResult = .error e →
      (legacyUpload cfg fs store (some f)).response = legacyError e) ∧
    (fs.exists0 = true → fs.readResult = .ok buf →
      store ⟨cfg.bucket, f.originalname, buf, f.mimetype⟩ = .error e →
      (legacyUpload cfg fs store (some f)).response = legacyError e) ∧
    (fs.exists0 = true → fs.readResult = .ok buf →
      store ⟨cfg.bucket, f.originalname, buf, f.mimetype⟩ = .ok () →
      fs.unlinkResults 0 = .error e →
      (legacyUpload cfg fs store (some f)).response = legacyError e) := by
  refine ⟨?_, ?_, ?_⟩ <;> intro h0 hr <;>
    simp [legacyUpload, h0, hr, legacyCatch]
  · intro hp; simp [hp, legacyCatch]
  · intro hp hu; simp [hp, hu, legacyCatch]

/-- C2 (witness): the amended theorem applied where reading the staged file
throws while the catch-block cleanup also fails. -/
theorem C2_cleanup_failure_effect_witness :
    (⟨true, Except.error "EIO", fun _ => Except.error "EACCES"⟩ : FsOracle).exists0
        = true ∧
    (⟨true, Except.error "EIO", fun _ => Except.error "EACCES"⟩ : FsOracle).readResult
        = .error "EIO" ∧
    (legacyUpload cfg0 ⟨true, Except.error "EIO", fun _ => Except.error "EACCES"⟩
        storeOk (some ⟨"uploads/x", "v.mp4", "video/mp4"⟩)).response =
      legacyError "EIO" :=
  ⟨rfl, rfl,
   (C2_cleanup_failure_effect cfg0
      ⟨true, Except.error "EIO", fun _ => Except.error "EACCES"⟩ storeOk
      ⟨"uploads/x", "v.mp4", "video/mp4"⟩ "EIO" []).1 rfl rfl⟩

/-- C3: in every invocation of `POST /upload` with a staged file payload,
whatever the outcomes of the existence check, the read and the store
write, if the deletions themselves succeed then the TemporaryFile no
longer exists on disk when the handler returns. -/
theorem C3_temp_file_deleted (cfg : Config) (fs : FsOracle)
    (store : PutCall → Except String Unit) (f : UploadedFile)
    (hpath : f.path ≠ "")
    (hunlink : ∀ i, fs.unlinkResults i = Except.ok ()) :
    (legacyUpload cfg fs store (some f)).tempFileExists = false := by
  unfold legacyUpload
  by_cases h0 : fs.exists0
  · rcases hr : fs.readResult with e | buf
    · simp [h0, hr, legacyCatch, hpath, hunlink 0]
    · rcases hp : store ⟨cfg.bucket, f.originalname, buf, f.mimetype⟩ with e | u
      · simp [h0, hr, hp, legacyCatch, hpath, hunlink 0]
      · simp [h0, hr, hp, hunlink 0]
  · simp [h0, legacyCatch]

/-- C3 (witness): a concrete run whose store write fails, with deletions
succeeding; the temp file is gone afterwards. -/
theorem C3_temp_file_deleted_witness :
    ((⟨"uploads/x", "v.mp4", "video/mp4"⟩ : UploadedFile).path ≠ "") ∧
    (legacyUpload cfg0 ⟨true, Except.ok [7], fun _ => Except.ok ()⟩
        (fun _ => Except.error "store down")
        (some ⟨"uploads/x", "v.mp4", "video/mp4"⟩)).tempFileExists = false :=
  ⟨by decide,
   C3_temp_file_deleted cfg0 ⟨true, Except.ok [7], fun _ => Except.ok ()⟩
     (fun _ => Except.error "store down") ⟨"uploads/x", "v.mp4", "video/mp4"⟩
     (by decide) (fun _ => rfl)⟩

/-- C6: when `POST /upload` succeeds — file staged, existence check passed,
read succeeded, store accepted the put and the deletion succeeded — the
response is exactly `success:true` with `video_url` equal to the public
base followed by the percent-encoded original filename and empty
`thumbnail_url` and `duration` placeholders. -/
theorem C6_legacy_success_response (cfg : Config) (fs : FsOracle)
    (store : PutCall → Except String Unit) (f : UploadedFile) (buf : List Nat)
    (h0 : fs.exists0 = true) (hr : fs.readResult = .ok buf)
    (hp : store ⟨cfg.bucket, f.originalname, buf, f.mimetype⟩ = .ok ())
    (hu : fs.unlinkResults 0 = .ok ()) :
    (legacyUpload cfg fs store (some f)).response =
      ⟨200, [("success", .b true),
             ("video_url", .s (baseUrl cfg ++ "/" ++ percentEncodeStr f.originalname)),
             ("thumbnail_url", .s ""), ("duration", .s ""),
             ("message", .s "Video uploaded successfully")]⟩ := by
  simp [legacyUpload, h0, hr, hp, hu, publicUrlFor]

/-- C6 (witness): uploading a file named `a b.txt` yields `video_url`
`https://cdn.atulyaayurveda.shop/a%20b.txt` with empty placeholders. -/
theorem C6_legacy_success_response_witness :
    (legacyUpload cfg0 ⟨true, Except.ok [104, 105], fun _ => Except.ok ()⟩ storeOk
        (some ⟨"uploads/x", "a b.txt", "text/plain"⟩)).response =
      ⟨200, [("success", .b true),
             ("video_url", .s "https://cdn.atulyaayurveda.shop/a%20b.txt"),
             ("thumbnail_url", .s ""), ("duration", .s ""),
             ("message", .s "Video uploaded successfully")]⟩ := by
  have h := C6_legacy_success_response cfg0
    ⟨true, Except.ok [104, 105], fun _ => Except.ok ()⟩ storeOk
    ⟨"uploads/x", "a b.txt", "text/plain"⟩ [104, 105] rfl rfl rfl rfl
  rw [h]
  decide

/-- C10: the legacy path sends no `PutObjectCommand` when a step before the
put fails — if the staged file is absent from disk, if reading it throws,
or if no file was uploaded at all, the put trace is empty. -/
theorem C10_no_put_before_failure (cfg : Config) (fs : FsOracle)
    (store : PutCall → Except String Unit) (f : UploadedFile) (e : String) :
    (fs.exists0 = false → (legacyUpload cfg fs store (some f)).puts = []) ∧
    (fs.readResult = .error e → (legacyUpload cfg fs store (some f)).puts = []) ∧
    (legacyUpload cfg fs store none).puts = [] := by
  refine ⟨fun h0 => ?_, fun hr => ?_, rfl⟩
  · simp [legacyUpload, h0, legacyCatch]
  · by_cases h0 : fs.exists0 <;> simp [legacyUpload, h0, hr, legacyCatch]

/-- C10 (witness): a run whose staged file is missing from disk sends no
put. -/
theorem C10_no_put_before_failure_witness :
    ((⟨false, Except.error "ENOENT", fun _ => Except.ok ()⟩ : FsOracle).exists0
        = false) ∧
    (legacyUpload cfg0 ⟨false, Except.error "ENOENT", fun _ => Except.ok ()⟩
        storeOk (some ⟨"uploads/x", "v.mp4", "video/mp4"⟩)).puts = [] :=
  ⟨rfl,
   (C10_no_put_before_failure cfg0
      ⟨false, Except.error "ENOENT", fun _ => Except.ok ()⟩ storeOk
      ⟨"uploads/x", "v.mp4", "video/mp4"⟩ "ENOENT").1 rfl⟩

/-! ## Percent-encoding round-trip (claim C5) -/

theorem utf8Bytes_lt_256 (n : Nat) (h : n < 1114112) :
    ∀ b ∈ utf8Bytes n, b < 256 := by
  intro b hb
  unfold utf8Bytes at hb
  split at hb
  · simp at hb; omega
  · split at hb
    · simp at hb
      rcases hb with h1 | h1 <;> omega
    · split at hb
      · simp at hb
        rcases hb with h1 | h1 | h1 <;> omega
      · simp at hb
        rcases hb with h1 | h1 | h1 | h1 <;> omega

theorem hexVal_hexDigit : ∀ n < 16, hexVal (hexDigit n) = some n := by decide

theorem unescape_percentEncodeByte (b : Nat) (hb : b < 256) (t : List Nat) :
    unescape (percentEncodeByte b ++ t) = (unescape t).map (fun l => b :: l) := by
  have h1 : hexVal (hexDigit (b / 16)) = some (b / 16) :=
    hexVal_hexDigit _ (by omega)
  have h2 : hexVal (hexDigit (b % 16)) = some (b % 16) :=
    hexVal_hexDigit _ (by omega)
  have hd : b / 16 * 16 + b % 16 = b := by omega
  simp [percentEncodeByte, unescape, h1, h2, hd]

theorem unescape_flatMap_bytes (bs : List Nat) (h : ∀ b ∈ bs, b < 256)
    (t : List Nat) :
    unescape (bs.flatMap percentEncodeByte ++ t) =
      (unescape t).map (fun l => bs ++ l) := by
  induction bs with
  | nil => simp
  | cons b bs ih =>
    rw [List.flatMap_cons, List.append_assoc,
        unescape_percentEncodeByte b (h b (List.mem_cons_self b bs)) _,
        ih (fun x hx => h x (List.mem_cons_of_mem b hx))]
    rw [Option.map_map]
    rfl

theorem isUnreserved_facts (n : Nat) (h : isUnreserved n = true) :
    n < 128 ∧ n ≠ 37 ∧ n ≠ 47 := by
  unfold isUnreserved at h
  simp only [Bool.or_eq_true, decide_eq_true_eq, Bool.and_eq_true] at h
  omega

theorem unescape_cons_ne (c : Nat) (hc : c ≠ 37) (rest : List Nat) :
    unescape (c :: rest) = (unescape rest).map (fun t => utf8Bytes c ++ t) := by
  rw [unescape.eq_def]
  simp [hc]

theorem unescape_encodeChar (n : Nat) (h : ValidScalar n) (t : List Nat) :
    unescape (encodeChar n ++ t) = (unescape t).map (fun l => utf8Bytes n ++ l) := by
  unfold encodeChar
  by_cases hu : isUnreserved n = true
  · obtain ⟨h128, h37, _⟩ := isUnreserved_facts n hu
    rw [if_pos hu]
    show unescape (n :: t) = _
    rw [unescape_cons_ne n h37]
  · rw [if_neg hu]
    exact unescape_flatMap_bytes _ (utf8Bytes_lt_256 n h.1) t

theorem utf8Decode_nil : utf8Decode [] = some [] := by
  rw [utf8Decode]
  simp

theorem utf8Decode_step {l : List Nat} {n : Nat} {rest : List Nat}
    (h : decodeOne l = some (n, rest)) :
    utf8Decode l = (utf8Decode rest).map (fun t => n :: t) := by
  have hl : ¬ l = [] := by rintro rfl; simp [decodeOne] at h
  rw [utf8Decode.eq_def, if_neg hl]
  split
  · next n2 rest2 heq =>
      rw [h] at heq
      simp only [Option.some.injEq, Prod.mk.injEq] at heq
      rw [heq.1, heq.2]
  · next heq => rw [h] at heq; exact absurd heq (by simp)

theorem decodeOne_bytes (n : Nat) (h : n < 1114112) (t : List Nat) :
    decodeOne (utf8Bytes n ++ t) = some (n, t) := by
  by_cases h1 : n < 128
  · rw [utf8Bytes, if_pos h1]
    show decodeOne (n :: t) = some (n, t)
    unfold decodeOne
    simp [h1]
  · by_cases h2 : n < 2048
    · rw [utf8Bytes, if_neg h1, if_pos h2]
      show decodeOne ((192 + n / 64) :: (128 + n % 64) :: t) = some (n, t)
      unfold decodeOne
      have e1 : ¬ 192 + n / 64 < 128 := by omega
      have e2 : ¬ 192 + n / 64 < 192 := by omega
      have e3 : 192 + n / 64 < 224 := by omega
      have c1 : 128 ≤ 128 + n % 64 := by omega
      have c2 : 128 + n % 64 < 192 := by omega
      have en : (192 + n / 64 - 192) * 64 + (128 + n % 64 - 128) = n := by omega
      simp [e1, e2, e3, c1, c2, en, h1]
      omega
    · by_cases h3 : n < 65536
      · rw [utf8Bytes, if_neg h1, if_neg h2, if_pos h3]
        show decodeOne
            ((224 + n / 4096) :: (128 + n / 64 % 64) :: (128 + n % 64) :: t) =
          some (n, t)
        unfold decodeOne
        have e1 : ¬ 224 + n / 4096 < 128 := by omega
        have e2 : ¬ 224 + n / 4096 < 192 := by omega
        have e3 : ¬ 224 + n / 4096 < 224 := by omega
        have e4 : 224 + n / 4096 < 240 := by omega
        have c1 : 128 ≤ 128 + n / 64 % 64 := by omega
        have c2 : 128 + n / 64 % 64 < 192 := by omega
        have c3 : 128 ≤ 128 + n % 64 := by omega
        have c4 : 128 + n % 64 < 192 := by omega
        have en : (224 + n / 4096 - 224) * 4096 + (128 + n / 64 % 64 - 128) * 64 +
            (128 + n % 64 - 128) = n := by omega
        have hge : 2048 ≤ n := by omega
        simp [e1, e2, e3, e4, c1, c2, c3, c4, en, hge]
        omega
      · rw [utf8Bytes, if_neg h1, if_neg h2, if_neg h3]
        show decodeOne
            ((240 + n / 262144) :: (128 + n / 4096 % 64) ::
              (128 + n / 64 % 64) :: (128 + n % 64) :: t) = some (n, t)
        unfold decodeOne
        have e1 : ¬ 240 + n / 262144 < 128 := by omega
        have e2 : ¬ 240 + n / 262144 < 192 := by omega
        have e3 : ¬ 240 + n / 262144 < 224 := by omega
        have e4 : ¬ 240 + n / 262144 < 240 := by omega
        have e5 : 240 + n / 262144 < 248 := by omega
        have c1 : 128 ≤ 128 + n / 4096 % 64 := by omega
        have c2 : 128 + n / 4096 % 64 < 192 := by omega
        have c3 : 128 ≤ 128 + n / 64 % 64 := by omega
        have c4 : 128 + n / 64 % 64 < 192 := by omega
        have c5 : 128 ≤ 128 + n % 64 := by omega
        have c6 : 128 + n % 64 < 192 := by omega
        have en : (240 + n / 262144 - 240) * 262144 +
            (128 + n / 4096 % 64 - 128) * 4096 +
            (128 + n / 64 % 64 - 128) * 64 + (128 + n % 64 - 128) = n := by omega
        have hge : 65536 ≤ n := by omega
        simp [e1, e2, e3, e4, e5, c1, c2, c3, c4, c5, c6, en, hge]
        omega

theorem utf8Decode_utf8Bytes (n : Nat) (h : n < 1114112) (t : List Nat) :
    utf8Decode (utf8Bytes n ++ t) = (utf8Decode t).map (fun l => n :: l) :=
  utf8Decode_step (decodeOne_bytes n h t)

theorem unescape_percentEncode (s : List Nat) (h : ∀ n ∈ s, ValidScalar n) :
    unescape (percentEncode s) = some (s.flatMap utf8Bytes) := by
  induction s with
  | nil => rfl
  | cons n s ih =>
    have hn := h n (List.mem_cons_self n s)
    have hs := fun x hx => h x (List.mem_cons_of_mem n hx)
    rw [percentEncode, List.flatMap_cons, unescape_encodeChar n hn]
    rw [percentEncode] at ih
    rw [ih hs]
    simp

theorem utf8Decode_flatMap (s : List Nat) (h : ∀ n ∈ s, ValidScalar n) :
    utf8Decode (s.flatMap utf8Bytes) = some s := by
  induction s with
  | nil => exact utf8Decode_nil
  | cons n s ih =>
    have hn := h n (List.mem_cons_self n s)
    have hs := fun x hx => h x (List.mem_cons_of_mem n hx)
    rw [List.flatMap_cons, utf8Decode_utf8Bytes n hn.1, ih hs]
    rfl

theorem percentDecode_percentEncode (s : List Nat)
    (h : ∀ n ∈ s, ValidScalar n) :
    percentDecode (percentEncode s) = some s := by
  rw [percentDecode, unescape_percentEncode s h]
  exact utf8Decode_flatMap s h

theorem hexDigit_bounds (n : Nat) (h : n < 16) :
    48 ≤ hexDigit n ∧ hexDigit n < 128 := by
  unfold hexDigit; split <;> omega

theorem percentEncode_ascii (s : List Nat) (h : ∀ n ∈ s, ValidScalar n) :
    ∀ m ∈ percentEncode s, m < 128 ∧ m ≠ 47 := by
  intro m hm
  rw [percentEncode, List.mem_flatMap] at hm
  obtain ⟨n, hn, hmn⟩ := hm
  have hv := h n hn
  unfold encodeChar at hmn
  by_cases hu : isUnreserved n = true
  · rw [if_pos hu] at hmn
    simp at hmn
    subst hmn
    obtain ⟨u1, u2, u3⟩ := isUnreserved_facts m hu
    exact ⟨u1, u3⟩
  · rw [if_neg hu] at hmn
    rw [List.mem_flatMap] at hmn
    obtain ⟨b, hb, hmb⟩ := hmn
    have hb256 := utf8Bytes_lt_256 n hv.1 b hb
    have h1 := hexDigit_bounds (b / 16) (by omega)
    have h2 := hexDigit_bounds (b % 16) (by omega)
    simp [percentEncodeByte] at hmb
    rcases hmb with rfl | rfl | rfl <;> omega

theorem takeWhile_ne47 (w y : List Nat) (h : ∀ a ∈ w, a ≠ 47) :
    (w ++ 47 :: y).takeWhile (fun c => c ≠ 47) = w := by
  induction w with
  | nil => simp
  | cons a w ih =>
    have ha := h a (List.mem_cons_self a w)
    rw [List.cons_append, List.takeWhile_cons, if_pos (by simp [ha]),
        ih (fun x hx => h x (List.mem_cons_of_mem a hx))]

theorem lastSegment_append (u v : List Nat) (hv : ∀ a ∈ v, a ≠ 47) :
    lastSegment (u ++ 47 :: v) = v := by
  unfold lastSegment
  rw [List.reverse_append, List.reverse_cons, List.append_assoc,
      List.singleton_append,
      takeWhile_ne47 v.reverse u.reverse
        (fun a ha => hv a (List.mem_reverse.mp ha)),
      List.reverse_reverse]

theorem validScalar_char (c : Char) : ValidScalar c.toNat := by
  have h : c.toNat.isValidChar := c.valid
  unfold Nat.isValidChar at h
  unfold ValidScalar
  omega

theorem char_toNat_ofNat (m : Nat) (h : m < 128) : (Char.ofNat m).toNat = m := by
  have hv : m.isValidChar := Or.inl (by omega)
  simp [Char.ofNat, hv, Char.toNat, Char.ofNatAux, UInt32.toNat,
        BitVec.toNat_ofNatLt]

theorem validScalar_of_data (s : String) :
    ∀ n ∈ s.data.map Char.toNat, ValidScalar n := by
  intro n hn
  rw [List.mem_map] at hn
  obtain ⟨c, -, rfl⟩ := hn
  exact validScalar_char c

theorem percentEncodeStr_data (s : String) :
    (percentEncodeStr s).data.map Char.toNat =
      percentEncode (s.data.map Char.toNat) := by
  unfold percentEncodeStr
  show ((percentEncode (s.data.map Char.toNat)).map Char.ofNat).map Char.toNat = _
  rw [List.map_map]
  have he : ∀ m ∈ percentEncode (s.data.map Char.toNat),
      (Char.toNat ∘ Char.ofNat) m = id m := by
    intro m hm
    exact char_toNat_ofNat m
      (percentEncode_ascii _ (validScalar_of_data s) m hm).1
  rw [List.map_congr_left he, List.map_id]

/-- C5: percent-encoding of filenames is reversible — for every filename
(spaces, unicode and reserved URL characters included), percent-decoding
the last path segment of the publicUrl built by `generateUploadURL` and
`legacyUpload` (`publicUrlFor`) yields back exactly the original
filename. -/
theorem C5_percent_encoding_reversible (cfg : Config) (fn : String) :
    percentDecode (lastSegment ((publicUrlFor cfg fn).data.map Char.toNat)) =
      some (fn.data.map Char.toNat) := by
  have hv := validScalar_of_data fn
  unfold publicUrlFor
  rw [String.data_append, String.data_append, List.map_append, List.map_append,
      percentEncodeStr_data,
      show List.map Char.toNat ("/" : String).data = [47] from rfl,
      List.append_assoc, List.singleton_append,
      lastSegment_append _ _ (fun a ha => (percentEncode_ascii _ hv a ha).2)]
  exact percentDecode_percentEncode _ hv
